import Mathlib

/-!
Shallow embedding of the core logic of the Smart-Financial-Planner
research pipeline (files `app/agents/tools/tools.py`,
`app/agents/researcher.py`, `app/agents/curator.py`,
`app/agents/fact_checker.py`, `app/agents/writer.py`), together with
theorems settling the specification claims about it.

External collaborators (search provider, page fetcher, embeddings/FAISS,
the language model, yfinance, the plotting layer, wall-clock time) are
modelled as explicit parameters; the pure logic each function performs on
their results is translated directly from the Python source.
-/

set_option maxRecDepth 10000

namespace SFP

/-! ### Claim verification (`verify_claims_tool` in tools.py) -/

/-- A source record as consumed by `verify_claims_tool`: a Python dict with
a `text` entry, an optional `url` entry (the empty string models both a
missing and an empty value, which Python's `or` treats identically) and an
optional `metadata.url` entry (passed through as-is by `s.get('metadata')
or \x7b\x7d).get('url')`, hence an `Option`). -/
structure Source where
  text : String
  url : String
  metaUrl : Option String
deriving DecidableEq, Repr

/-- `s.get('url') or (s.get('metadata') or ...).get('url')` from the source:
the top-level `url` wins when truthy (non-empty), otherwise the metadata
value (possibly absent) is used. -/
def sourceUrl (s : Source) : Option String :=
  if s.url = "" then s.metaUrl else some s.url

/-- The record built per claim by `verify_claims_tool`:
`{"claim": c, "verdict": ..., "evidence_url": ..., "note": f"overlap=..."}`.
There is no `overlap_score` entry in the source; the maximum overlap is
reported inside the `note` string. -/
structure VerifiedClaim where
  claim : String
  verdict : Bool
  evidence_url : Option String
  note : String
deriving DecidableEq, Repr

/-- Character class of the regex `[A-Za-z0-9\-]+` used by the tokenizer. -/
def isWordChar (c : Char) : Bool :=
  (decide ('A' ≤ c) && decide (c ≤ 'Z')) ||
  (decide ('a' ≤ c) && decide (c ≤ 'z')) ||
  (decide ('0' ≤ c) && decide (c ≤ '9')) ||
  (c == '-')

/-- Python `str.lower()` on the character list of a string (ASCII-faithful). -/
def lowerStr (s : String) : List Char :=
  s.toList.map Char.toLower

/-- `re.findall(r"[A-Za-z0-9\-]+", ...)`: maximal runs of word characters.
The accumulator holds the current run in reverse. -/
def findAllWordRuns : List Char → List Char → List (List Char)
  | [], acc => if acc.isEmpty then [] else [acc.reverse]
  | c :: cs, acc =>
    if isWordChar c then findAllWordRuns cs (c :: acc)
    else if acc.isEmpty then findAllWordRuns cs []
    else acc.reverse :: findAllWordRuns cs []

/-- `[t for t in re.findall(r"[A-Za-z0-9\-]+", c.lower()) if len(t)>3]`. -/
def claimTokens (c : String) : List (List Char) :=
  (findAllWordRuns (lowerStr c) []).filter (fun t => 3 < t.length)

/-- Python's substring test `t in s` on character lists. -/
def isSubstr (t : List Char) : List Char → Bool
  | [] => t.isEmpty
  | c :: s => t.isPrefixOf (c :: s) || isSubstr t s

/-- `sum(1 for t in toks if t in text)` with `text` lowercased first;
counts with multiplicity, exactly as the Python generator does. -/
def overlapCount (toks : List (List Char)) (text : String) : Nat :=
  toks.countP (fun t => isSubstr t (lowerStr text))

/-- Loop state of the per-claim `for s in sources` loop:
`verdict=False; url=None; overlap_max=0`. -/
structure VState where
  verdict : Bool
  url : Option String
  omax : Nat
deriving DecidableEq, Repr

/-- One iteration of the source loop in `verify_claims_tool`: update the
running maximum and best url on strict improvement, then set the verdict
when the overlap meets the threshold. -/
def vstep (toks : List (List Char)) (m : Int) (st : VState) (s : Source) : VState :=
  let ov := overlapCount toks s.text
  let st1 := if st.omax < ov then { st with omax := ov, url := sourceUrl s } else st
  if m ≤ (ov : Int) then { st1 with verdict := true } else st1

/-- Per-claim body of `verify_claims_tool`. -/
def verifyOne (sources : List Source) (m : Int) (c : String) : VerifiedClaim :=
  let toks := claimTokens c
  let st := sources.foldl (vstep toks m) ⟨false, none, 0⟩
  ⟨c, st.verdict, st.url, "overlap=" ++ toString st.omax⟩

/-- `verify_claims_tool(claims, sources, min_overlap)` from tools.py. -/
def verify_claims_tool (claims : List String) (sources : List Source)
    (min_overlap : Int) : List VerifiedClaim :=
  claims.map (verifyOne sources min_overlap)

/-- Maximum token overlap across the sources (0 when there are none),
matching the loop's `overlap_max` initialisation. -/
def maxOverlap (toks : List (List Char)) (sources : List Source) : Nat :=
  (sources.map (fun s => overlapCount toks s.text)).foldr max 0

/-- Modelled from the spec's words (refinement target, not from the code):
"`evidence_url` is the URL of the best-matching source regardless of
whether the threshold was met" — the url of the first source attaining the
maximum overlap. -/
def specBestMatchUrl (toks : List (List Char)) (sources : List Source) :
    Option String :=
  (sources.find? (fun s =>
    decide (maxOverlap toks sources ≤ overlapCount toks s.text))).bind sourceUrl

/-! ### Documents, evidence index (`build_index` in tools.py) -/

/-- A document as produced by the researcher and consumed by `build_index`
and the later stages: `{url, title, text}`. -/
structure Doc where
  url : String
  title : String
  text : String
deriving DecidableEq, Repr

/-- `fact_checker.node` passes the state's docs directly as the `sources`
of `verify_claims_tool`; such dicts carry `url` and `text` and no
`metadata` entry. -/
def docToSource (d : Doc) : Source :=
  ⟨d.text, d.url, none⟩

/-- Result of `build_index`: either an error dict
`{"ok": False, "msg": ...}` or a success `{"ok": True, ..., "size": N}`.
The FAISS/embedding construction and the timestamp key are external and
not part of the modelled logic. -/
inductive BuildResult where
  | err (msg : String)
  | ok (size : Nat)
deriving DecidableEq, Repr

/-- `not ((d.get("text") or "")[:3000]).strip()`: the first 3000 characters
of the text are all whitespace. -/
def blankTrunc (d : Doc) : Bool :=
  (d.text.toList.take 3000).all (fun c => c.isWhitespace)

/-- `build_index(docs)` from tools.py: fail on an empty list; keep the
documents whose truncated text is non-blank; fail if none are kept,
otherwise report how many were kept. -/
def build_index (docs : List Doc) : BuildResult :=
  if docs.isEmpty then .err "no docs"
  else
    let lang_docs := docs.filter (fun d => !(blankTrunc d))
    if lang_docs.isEmpty then .err "no valid text"
    else .ok lang_docs.length

/-- Whether a `build_index` result is the failure shape (`"ok": False`). -/
def isErr : BuildResult → Bool
  | .err _ => true
  | .ok _ => false

/-- The reported `size` of a `build_index` result, when it succeeded. -/
def sizeOfResult : BuildResult → Option Nat
  | .err _ => none
  | .ok n => some n

/-! ### KPI maps (`kpi_web_fallback` in tools.py, `writer.node`) -/

/-- The four KPI names handled by the pipeline. -/
inductive KpiKey where
  | pe
  | ps
  | gm
  | om
deriving DecidableEq, Repr

/-- A partial KPI dict: each of the four keys is present with a rational
value or absent. -/
def KpiMap := KpiKey → Option ℚ

/-- The empty KPI dict `results = \x7b\x7d`. -/
def emptyKpi : KpiMap := fun _ => none

/-- `for kk, vv in new.items(): if vv is not None and kk not in base:
base[kk] = vv` — also the effect of `base.setdefault(kk, vv)`:
already-present keys win, absent keys are filled from `new`. -/
def fillGaps (base new : KpiMap) : KpiMap := fun k =>
  match base k with
  | some v => some v
  | none => new k

/-- Python `base.update(new)`: keys present in `new` overwrite `base`. -/
def updateMap (base new : KpiMap) : KpiMap := fun k =>
  match new k with
  | some v => some v
  | none => base k

/-- `all(x in m for x in ["p_e_ratio","p_s_ratio","gross_margin",
"operating_margin"])`. -/
def kpiComplete (m : KpiMap) : Bool :=
  (m .pe).isSome && (m .ps).isSome && (m .gm).isSome && (m .om).isSome

/-- The page loop of `kpi_web_fallback`: each fetched page contributes the
KPI dict extracted from its text (the web search, fetch and regex
extraction are external, so the per-page results are the parameter);
values fill only absent keys, and the loop breaks early once all four
KPIs are present. -/
def fallbackPages : List KpiMap → KpiMap → KpiMap
  | [], acc => acc
  | p :: rest, acc =>
    let acc2 := fillGaps acc p
    if kpiComplete acc2 then acc2 else fallbackPages rest acc2

/-- `kpi_web_fallback`: accumulate page extractions starting from the empty
dict, then `results.setdefault(kk, vv)` for each yfinance value `yfin`. -/
def kpi_web_fallback (pages : List KpiMap) (yfin : KpiMap) : KpiMap :=
  fillGaps (fallbackPages pages emptyKpi) yfin

/-- The KPI merge performed by `writer.node`: take the dict extracted from
the concatenated document text; if any of the four KPIs is missing, obtain
the fallback dict `fb` and merge it with `kpi.update(fb)`. -/
def writerKpi (ext fb : KpiMap) : KpiMap :=
  if kpiComplete ext then ext else updateMap ext fb

/-! ### Growth estimation (`_estimate_growth` in tools.py) -/

/-- `min(max(x, lo), hi)` / `np.clip(x, lo, hi)`. -/
def clampQ (x lo hi : ℚ) : ℚ := min (max x lo) hi

/-- `_estimate_growth(kpi, momentum, cagr)` from tools.py, over exact
rationals. Python truthiness is preserved: `if gm:` and `if om:` skip both
an absent and a zero value; `if pe and pe>0:` reduces to `0 < pe`;
`if cagr is not None:` and `if momentum is not None:` test presence only. -/
def estimate_growth (kpi : KpiMap) (momentum cagr : Option ℚ) : ℚ :=
  let base : ℚ := 8/100
  let adjGm : ℚ :=
    match kpi .gm with
    | some g => if g = 0 then 0 else clampQ ((g - 35/100) * (5/10)) (-(5/100)) (10/100)
    | none => 0
  let adjOm : ℚ :=
    match kpi .om with
    | some o => if o = 0 then 0 else clampQ ((o - 15/100) * (7/10)) (-(5/100)) (12/100)
    | none => 0
  let adjPe : ℚ :=
    match kpi .pe with
    | some p => if 0 < p then (if p < 20 then 2/100 else if 50 < p then -(3/100) else 0) else 0
    | none => 0
  let adjCagr : ℚ :=
    match cagr with
    | some c => clampQ (c * (5/10)) (-(5/100)) (10/100)
    | none => 0
  let adjMom : ℚ :=
    match momentum with
    | some mo => clampQ (mo * (3/10)) (-(5/100)) (6/100)
    | none => 0
  max (base + (adjGm + adjOm + adjPe + adjCagr + adjMom)) (1/100)

/-! ### Web search (`web_search` in tools.py) -/

/-- A normalised search hit `{title, snippet, link}` as produced by `norm`
inside `web_search` (every key present, defaulting to the empty string). -/
structure Hit where
  title : String
  snippet : String
  link : String
deriving DecidableEq, Repr

/-- `key = x.get("link") or x.get("title")`: the link when non-empty,
otherwise the title. -/
def hitKey (h : Hit) : String :=
  if h.link = "" then h.title else h.link

/-- The dedup loop of `web_search`: keep a hit when its key is truthy and
unseen, remembering seen keys. -/
def dedupHits (seen : List String) : List Hit → List Hit
  | [] => []
  | h :: rest =>
    if hitKey h ≠ "" ∧ hitKey h ∉ seen then h :: dedupHits (hitKey h :: seen) rest
    else dedupHits seen rest

/-- Python list slicing `l[:n]` for an arbitrary integer `n`:
`l[0:n]` when `n ≥ 0`, `l[0:max(len(l)+n, 0)]` when `n < 0`. -/
def pySliceTo (n : Int) (l : List Hit) : List Hit :=
  if 0 ≤ n then l.take n.toNat else l.take (l.length - (-n).toNat)

/-- `web_search`: the providers' collected, normalised hits `raw` are
external input; the tool then deduplicates them (`seen`/`final` loop) and
returns `final[:max_results]`. -/
def web_search (raw : List Hit) (max_results : Int) : List Hit :=
  pySliceTo max_results (dedupHits [] raw)

/-! ### Pipeline stages and trace
(`researcher.node`, `curator.node`, `fact_checker.node`, `writer.node`) -/

/-- A trace entry: every stage event carries the node name and a wall-clock
timestamp (an external input, modelled as a `Nat`); the `:done` events also
carry a doc/claim count. -/
structure TraceEvent where
  node : String
  t : Nat
  metric : Option Nat
deriving DecidableEq, Repr

/-- The `ResearchState` TypedDict threaded through the langgraph pipeline
(`app/graph/state.py`). -/
structure PState where
  query : String
  ticker : String
  webResults : List Hit
  docs : List Doc
  summary : String
  claims : List String
  checked : List VerifiedClaim
  reportHtml : Option String
  trace : List TraceEvent
deriving DecidableEq, Repr

/-- The pseudo-document built by `researcher.node` when no hit yields a
fetchable link: first hit's link/title/snippet, empty strings without
hits. -/
def pseudoDoc : List Hit → Doc
  | [] => ⟨"", "", ""⟩
  | h :: _ => ⟨h.link, h.title, h.snippet⟩

/-- The fetch targets of `researcher.node`: the non-empty links of the
first six hits, in order. -/
def fetchLinks (hits : List Hit) : List String :=
  ((hits.take 6).map (fun h => h.link)).filter (fun u => u ≠ "")

/-- The `docs` computed by `researcher.node`: fetch every target link
(`http_fetch` always returns a `{url,status,title,text}` dict, modelled by
the total oracle `fetch`), or degrade to the single pseudo-document when
there is no target. -/
def researcherDocs (fetch : String → Doc) (hits : List Hit) : List Doc :=
  let links := fetchLinks hits
  if links.isEmpty then [pseudoDoc hits] else links.map fetch

/-- `researcher.node`: append the start event, set `web_results` and
`docs`, append the done event with the doc count. The search hits and the
fetches are external inputs. -/
def researcher_node (fetch : String → Doc) (hits : List Hit) (t1 t2 : Nat)
    (s : PState) : PState :=
  let tr1 := s.trace ++ [⟨"researcher", t1, none⟩]
  let docs := researcherDocs fetch hits
  { s with webResults := hits, docs := docs,
           trace := tr1 ++ [⟨"researcher:done", t2, some docs.length⟩] }

/-- `curator.node`: append the start event; select documents (the
index-backed selection is external: `some sel` models a successful
build+search mapped back to documents, `none` the fallback to the first
six raw docs); set the summary (the summariser is external); append the
done event with the selected count. -/
def curatorSelected (sel? : Option (List Doc)) (s : PState) : List Doc :=
  match sel? with
  | some sel => sel
  | none => s.docs.take 6

def curator_node (sel? : Option (List Doc)) (summarize : List Doc → String)
    (t1 t2 : Nat) (s : PState) : PState :=
  let tr1 := s.trace ++ [⟨"curator", t1, none⟩]
  let selected := curatorSelected sel? s
  { s with docs := selected, summary := summarize selected,
           trace := tr1 ++ [⟨"curator:done", t2, some selected.length⟩] }

/-- `fact_checker.node`: append the start event; extract claims (external
LLM call, modelled by the `claims` parameter); verify them against the
state's docs with `verify_claims_tool`; append the done event with the
checked-claim count. -/
def fact_checker_node (claims : List String) (min_overlap : Int)
    (t1 t2 : Nat) (s : PState) : PState :=
  let tr1 := s.trace ++ [⟨"fact_checker", t1, none⟩]
  let checked := verify_claims_tool claims (s.docs.map docToSource) min_overlap
  { s with claims := claims, checked := checked,
           trace := tr1 ++ [⟨"fact_checker:done", t2, some checked.length⟩] }

/-- `writer.node`: computes KPIs, projection charts and the report (all
via external tools and file writes) and records the report path; it never
touches the `trace` field. -/
def writer_node (report : String) (s : PState) : PState :=
  { s with reportHtml := some report }

/-! ### Characterisation of the `verify_claims_tool` loop -/

lemma vstep_verdict (toks : List (List Char)) (m : Int) (st : VState) (s : Source) :
    (vstep toks m st s).verdict
      = (st.verdict || decide (m ≤ (overlapCount toks s.text : Int))) := by
  unfold vstep
  by_cases h1 : st.omax < overlapCount toks s.text <;>
    by_cases h2 : m ≤ (overlapCount toks s.text : Int) <;>
      simp [h1, h2]

lemma vstep_omax (toks : List (List Char)) (m : Int) (st : VState) (s : Source) :
    (vstep toks m st s).omax = max st.omax (overlapCount toks s.text) := by
  unfold vstep
  by_cases h1 : st.omax < overlapCount toks s.text <;>
    by_cases h2 : m ≤ (overlapCount toks s.text : Int) <;>
      simp [h1, h2] <;> omega

lemma vstep_url (toks : List (List Char)) (m : Int) (st : VState) (s : Source) :
    (vstep toks m st s).url
      = if st.omax < overlapCount toks s.text then sourceUrl s else st.url := by
  unfold vstep
  by_cases h1 : st.omax < overlapCount toks s.text <;>
    by_cases h2 : m ≤ (overlapCount toks s.text : Int) <;>
      simp [h1, h2]

lemma maxOverlap_cons (toks : List (List Char)) (s : Source) (rest : List Source) :
    maxOverlap toks (s :: rest)
      = max (overlapCount toks s.text) (maxOverlap toks rest) := by
  simp [maxOverlap]

lemma foldl_vstep_verdict (toks : List (List Char)) (m : Int)
    (sources : List Source) (st : VState) :
    (sources.foldl (vstep toks m) st).verdict
      = (st.verdict
          || sources.any (fun s => decide (m ≤ (overlapCount toks s.text : Int)))) := by
  induction sources generalizing st with
  | nil => simp
  | cons s rest ih =>
    rw [List.foldl_cons, ih, vstep_verdict]
    simp [Bool.or_assoc]

lemma foldl_vstep_omax (toks : List (List Char)) (m : Int)
    (sources : List Source) (st : VState) :
    (sources.foldl (vstep toks m) st).omax = max st.omax (maxOverlap toks sources) := by
  induction sources generalizing st with
  | nil => simp [maxOverlap]
  | cons s rest ih =>
    rw [List.foldl_cons, ih, vstep_omax, maxOverlap_cons]
    omega

lemma foldl_vstep_url (toks : List (List Char)) (m : Int)
    (sources : List Source) (st : VState) :
    (sources.foldl (vstep toks m) st).url =
      if maxOverlap toks sources ≤ st.omax then st.url
      else (sources.find? (fun s =>
        decide (maxOverlap toks sources ≤ overlapCount toks s.text))).bind sourceUrl := by
  induction sources generalizing st with
  | nil => simp [maxOverlap]
  | cons s rest ih =>
    rw [List.foldl_cons, ih, vstep_omax, vstep_url, maxOverlap_cons]
    rcases Nat.lt_or_ge st.omax (overlapCount toks s.text) with h1 | h1
    · rcases le_or_lt (maxOverlap toks rest) (overlapCount toks s.text) with h2 | h2
      · have e1 : max st.omax (overlapCount toks s.text) = overlapCount toks s.text := by omega
        have e2 : max (overlapCount toks s.text) (maxOverlap toks rest)
            = overlapCount toks s.text := by omega
        rw [e1, e2, if_pos h2, if_pos h1,
            if_neg (by omega : ¬ overlapCount toks s.text ≤ st.omax),
            List.find?_cons_of_pos _ (by simp)]
        simp
      · have e1 : max st.omax (overlapCount toks s.text) = overlapCount toks s.text := by omega
        have e2 : max (overlapCount toks s.text) (maxOverlap toks rest)
            = maxOverlap toks rest := by omega
        rw [e1, e2, if_neg (by omega : ¬ maxOverlap toks rest ≤ overlapCount toks s.text),
            if_neg (by omega : ¬ maxOverlap toks rest ≤ st.omax),
            List.find?_cons_of_neg _ (by simp; omega)]
    · have e1 : max st.omax (overlapCount toks s.text) = st.omax := by omega
      rw [e1]
      rcases le_or_lt (maxOverlap toks rest) st.omax with h2 | h2
      · have e2 : max (overlapCount toks s.text) (maxOverlap toks rest) ≤ st.omax := by omega
        rw [if_pos h2, if_pos e2, if_neg (by omega : ¬ st.omax < overlapCount toks s.text)]
      · have e2 : max (overlapCount toks s.text) (maxOverlap toks rest)
            = maxOverlap toks rest := by omega
        rw [e2, if_neg (by omega : ¬ maxOverlap toks rest ≤ st.omax),
            if_neg (by omega : ¬ maxOverlap toks rest ≤ st.omax),
            List.find?_cons_of_neg _ (by simp; omega)]

/-- Full characterisation of the record `verify_claims_tool` builds for a
single claim. -/
lemma verifyOne_spec (sources : List Source) (m : Int) (c : String) :
    verifyOne sources m c =
      { claim := c,
        verdict := sources.any (fun s =>
          decide (m ≤ (overlapCount (claimTokens c) s.text : Int))),
        evidence_url :=
          if maxOverlap (claimTokens c) sources = 0 then none
          else (sources.find? (fun s =>
            decide (maxOverlap (claimTokens c) sources
              ≤ overlapCount (claimTokens c) s.text))).bind sourceUrl,
        note := "overlap=" ++ toString (maxOverlap (claimTokens c) sources) } := by
  unfold verifyOne
  dsimp only
  rw [foldl_vstep_verdict, foldl_vstep_url, foldl_vstep_omax]
  simp only [Bool.false_or, Nat.zero_le, max_eq_right]
  congr 1
  rcases Nat.eq_zero_or_pos (maxOverlap (claimTokens c) sources) with h | h
  · rw [if_pos (by omega), if_pos h]
  · rw [if_neg (by omega), if_neg (by omega)]

/-! ### Claim C1 -/

/-- C1, counterexample: the claim says the verdict is true iff the maximum
overlap across all sources (0 when there are none, matching the loop's own
`overlap_max` initialisation) meets or exceeds `min_overlap`. With no
sources and `min_overlap = 0` the maximum reading demands a true verdict,
but `verify_claims_tool` never enters the source loop and returns a false
verdict. -/
theorem C1_counterexample :
    ¬ (∀ (claims : List String) (sources : List Source) (m : Int),
        ((verify_claims_tool claims sources m).zip claims).all (fun p =>
          p.1.verdict
            == decide (m ≤ (maxOverlap (claimTokens p.2) sources : Int))) = true) := by
  intro h
  exact absurd (h ["abcd"] [] 0) (by decide)

/-- C1 (amended): `verify_claims_tool` returns one record per input claim
in order, carrying the claim string, and the verdict is true iff SOME
source's overlap (number of lowercase alphanumeric-and-hyphen claim tokens
of length > 3 occurring as substrings of the lowercased source text) meets
or exceeds `min_overlap`; with at least one source this coincides with the
maximum-overlap reading, but with no sources the verdict is always false
even when `min_overlap ≤ 0`. -/
theorem C1_verify_returns_one_per_claim (claims : List String)
    (sources : List Source) (m : Int) :
    (verify_claims_tool claims sources m).length = claims.length ∧
    ((verify_claims_tool claims sources m).zip claims).all (fun p =>
      (p.1.claim == p.2) &&
      (p.1.verdict == sources.any (fun s =>
        decide (m ≤ (overlapCount (claimTokens p.2) s.text : Int))))) = true := by
  constructor
  · simp [verify_claims_tool]
  · induction claims with
    | nil => simp [verify_claims_tool]
    | cons c cs ih =>
      simp only [verify_claims_tool, List.map_cons, List.zip_cons_cons,
        List.all_cons, Bool.and_eq_true] at ih ⊢
      refine ⟨?_, ih⟩
      rw [verifyOne_spec]
      simp

/-! ### Claim C3 -/

/-- C3, counterexample: the claim says `evidence_url` is the URL of the
best-matching source regardless of whether the threshold was met. With
claim "abcd" and one source of text "zzzz" (overlap 0), the best-matching
source is that source with URL "u", yet the code leaves `evidence_url`
empty because the URL is only recorded on a strict improvement over the
initial maximum 0. There is also no integer `overlap_score` field at all:
the record carries the maximum inside the string `note`. -/
theorem C3_counterexample :
    ¬ (∀ (claims : List String) (sources : List Source) (m : Int),
        ((verify_claims_tool claims sources m).zip claims).all (fun p =>
          p.1.evidence_url == specBestMatchUrl (claimTokens p.2) sources) = true) := by
  intro h
  exact absurd (h ["abcd"] [⟨"zzzz", "u", none⟩] 1) (by decide)

/-- C3 (amended): each returned record carries no `overlap_score` field;
the maximum overlap is reported as the string `note = "overlap=N"`, and
`evidence_url` is the URL of the first source achieving the maximal
overlap provided that maximum is strictly positive — when no source has a
positive overlap it is empty, threshold or not. -/
theorem C3_note_carries_max_overlap (claims : List String)
    (sources : List Source) (m : Int) :
    ((verify_claims_tool claims sources m).all (fun r =>
      (r.note == "overlap=" ++ toString (maxOverlap (claimTokens r.claim) sources)) &&
      (r.evidence_url ==
        if maxOverlap (claimTokens r.claim) sources = 0 then none
        else (sources.find? (fun s =>
          decide (maxOverlap (claimTokens r.claim) sources
            ≤ overlapCount (claimTokens r.claim) s.text))).bind sourceUrl))) = true := by
  apply List.all_eq_true.2
  intro r hr
  unfold verify_claims_tool at hr
  rcases List.mem_map.1 hr with ⟨c, _, rfl⟩
  rw [verifyOne_spec]
  simp

/-! ### Claim C4 -/

/-- C4: verification is monotone in the threshold — for fixed claims and
sources and `m1 ≤ m2`, every claim whose verdict is true at
`min_overlap = m2` also has a true verdict at `min_overlap = m1`. -/
theorem C4_monotone_in_threshold (claims : List String) (sources : List Source)
    (m1 m2 : Int) (h : m1 ≤ m2) :
    ((verify_claims_tool claims sources m2).zip
        (verify_claims_tool claims sources m1)).all
      (fun p => !p.1.verdict || p.2.verdict) = true := by
  induction claims with
  | nil => simp [verify_claims_tool]
  | cons c cs ih =>
    simp only [verify_claims_tool, List.map_cons, List.zip_cons_cons,
      List.all_cons, Bool.and_eq_true] at ih ⊢
    refine ⟨?_, ih⟩
    rw [verifyOne_spec, verifyOne_spec]
    by_cases h2 : sources.any (fun s =>
        decide (m2 ≤ (overlapCount (claimTokens c) s.text : Int))) = true
    · rcases List.any_eq_true.1 h2 with ⟨s, hs, hdec⟩
      have h1 : sources.any (fun s =>
          decide (m1 ≤ (overlapCount (claimTokens c) s.text : Int))) = true :=
        List.any_eq_true.2 ⟨s, hs, decide_eq_true (le_trans h (of_decide_eq_true hdec))⟩
      simp [h1]
    · simp only [Bool.not_eq_true] at h2
      simp [h2]

/-- C4, witness at a concrete instance: thresholds 1 ≤ 2, one claim
matching its source. -/
theorem C4_monotone_in_threshold_witness :
    (1 : Int) ≤ 2 ∧
    ((verify_claims_tool ["abcd efgh"] [⟨"xx abcd yy efgh", "u", none⟩] 2).zip
        (verify_claims_tool ["abcd efgh"] [⟨"xx abcd yy efgh", "u", none⟩] 1)).all
      (fun p => !p.1.verdict || p.2.verdict) = true :=
  ⟨by decide,
   C4_monotone_in_threshold ["abcd efgh"] [⟨"xx abcd yy efgh", "u", none⟩] 1 2 (by decide)⟩

/-! ### Claim C10 -/

/-- C10: with an empty source list every returned record has a false
verdict and an empty `evidence_url`, for every `min_overlap` — including
`min_overlap ≤ 0`; in general `evidence_url` is empty whenever no source
achieves a strictly positive overlap with the claim. -/
theorem C10_empty_sources_verdict_false (claims : List String)
    (sources : List Source) (m : Int) :
    ((verify_claims_tool claims [] m).all (fun r =>
        (r.verdict == false) && (r.evidence_url == (none : Option String)))) = true ∧
    ((verify_claims_tool claims sources m).all (fun r =>
        if maxOverlap (claimTokens r.claim) sources = 0
        then r.evidence_url == (none : Option String)
        else true)) = true := by
  constructor
  · apply List.all_eq_true.2
    intro r hr
    unfold verify_claims_tool at hr
    rcases List.mem_map.1 hr with ⟨c, _, rfl⟩
    rw [verifyOne_spec]
    simp [maxOverlap]
  · apply List.all_eq_true.2
    intro r hr
    unfold verify_claims_tool at hr
    rcases List.mem_map.1 hr with ⟨c, _, rfl⟩
    rw [verifyOne_spec]
    by_cases h0 : maxOverlap (claimTokens c) sources = 0
    · simp [h0]
    · simp [h0]

/-! ### Claim C5 -/

lemma all_blank_iff_filter_empty (docs : List Doc) :
    docs.all blankTrunc = (docs.filter (fun x => !(blankTrunc x))).isEmpty := by
  induction docs with
  | nil => rfl
  | cons d ds ih => cases hd : blankTrunc d <;> simp [List.filter_cons, hd, ih]

/-- C5: `build_index` fails (returns the `"ok": False` shape) iff every
document's text is blank after truncation to 3000 characters — including
the empty-list case, where the failure message differs but the result is
still a failure — and otherwise succeeds with `size` equal to the number
of documents whose truncated text is non-blank. -/
theorem C5_build_index_empty_iff_all_blank (docs : List Doc) :
    isErr (build_index docs) = docs.all blankTrunc ∧
    sizeOfResult (build_index docs) =
      (if docs.all blankTrunc then none
       else some (docs.countP (fun d => !(blankTrunc d)))) := by
  rw [all_blank_iff_filter_empty]
  unfold build_index
  cases docs with
  | nil => simp [isErr, sizeOfResult]
  | cons d ds =>
    by_cases hf : (((d :: ds) : List Doc).filter (fun x => !(blankTrunc x))).isEmpty
    · simp [hf, isErr, sizeOfResult]
    · simp [hf, isErr, sizeOfResult, List.countP_eq_length_filter]

/-! ### Claim C6 -/

/-- C6: `_estimate_growth` always returns at least 0.01, whatever the KPI
inputs, momentum and CAGR — the final clamp floor holds. -/
theorem C6_growth_floor (kpi : KpiMap) (momentum cagr : Option ℚ) :
    (1 : ℚ)/100 ≤ estimate_growth kpi momentum cagr := by
  unfold estimate_growth
  dsimp only
  exact le_max_right _ _

/-! ### Claim C2 -/

lemma fillGaps_preserve (base new : KpiMap) (k : KpiKey) (v : ℚ)
    (h : base k = some v) : fillGaps base new k = some v := by
  simp [fillGaps, h]

lemma fallbackPages_preserve (pages : List KpiMap) (acc : KpiMap) (k : KpiKey)
    (v : ℚ) (h : acc k = some v) : fallbackPages pages acc k = some v := by
  induction pages generalizing acc with
  | nil => simpa [fallbackPages] using h
  | cons p rest ih =>
    simp only [fallbackPages]
    by_cases hc : kpiComplete (fillGaps acc p) = true
    · simp only [hc, if_pos]
      exact fillGaps_preserve acc p k v h
    · rw [if_neg hc]
      exact ih _ (fillGaps_preserve acc p k v h)

/-- A KPI dict holding only a `p_e_ratio` entry. -/
def kpiOnlyPe (v : ℚ) : KpiMap := fun k => if k = KpiKey.pe then some v else none

/-- C2, counterexample: the claim says a KPI key already produced by
extraction is left unchanged by the fallback path. But `writer.node`
merges with `kpi.update(fb)`, in which the fallback dict wins: with an
extracted `p_e_ratio = 5` (the other three KPIs missing, so the fallback
runs) and a fallback result `p_e_ratio = 30`, the final KPI set holds 30,
not 5. -/
theorem C2_counterexample :
    ¬ (∀ (ext fb : KpiMap) (k : KpiKey) (v : ℚ),
        ext k = some v → writerKpi ext fb k = some v) := by
  intro h
  exact absurd (h (kpiOnlyPe 5) (kpiOnlyPe 30) KpiKey.pe 5 (by decide)) (by decide)

/-- C2 (amended): inside `kpi_web_fallback` itself values are only filled
into absent keys — a key already present in the accumulator survives both
the page loop and the yfinance `setdefault` pass unchanged. At the caller,
however, the writer merges with `kpi.update(fb)`, so an extracted value
for a key survives only when the fallback result lacks that key; whenever
extraction was incomplete the final value of every key is the plain
`update` merge in which the fallback wins. -/
theorem C2_fallback_fills_gaps_only (pages : List KpiMap)
    (yfin acc ext fb : KpiMap) (k : KpiKey) (v : ℚ) :
    (acc k = some v → fillGaps (fallbackPages pages acc) yfin k = some v) ∧
    (ext k = some v → fb k = none → writerKpi ext fb k = some v) ∧
    (kpiComplete ext = false → writerKpi ext fb k = updateMap ext fb k) := by
  refine ⟨?_, ?_, ?_⟩
  · intro h
    exact fillGaps_preserve _ _ _ _ (fallbackPages_preserve pages acc k v h)
  · intro h1 h2
    unfold writerKpi
    by_cases hc : kpiComplete ext = true
    · rw [if_pos hc]; exact h1
    · rw [if_neg hc]
      simp [updateMap, h1, h2]
  · intro h
    simp [writerKpi, h]

/-- C2, witness: concrete instantiations of all three amended parts. -/
theorem C2_fallback_fills_gaps_only_witness :
    ((kpiOnlyPe 5) KpiKey.pe = some 5 ∧
      fillGaps (fallbackPages [kpiOnlyPe 7] (kpiOnlyPe 5)) emptyKpi KpiKey.pe = some 5) ∧
    (emptyKpi KpiKey.pe = none ∧
      writerKpi (kpiOnlyPe 5) emptyKpi KpiKey.pe = some 5) ∧
    (kpiComplete (kpiOnlyPe 5) = false ∧
      writerKpi (kpiOnlyPe 5) (kpiOnlyPe 30) KpiKey.pe
        = updateMap (kpiOnlyPe 5) (kpiOnlyPe 30) KpiKey.pe) :=
  ⟨⟨by decide,
    (C2_fallback_fills_gaps_only [kpiOnlyPe 7] emptyKpi (kpiOnlyPe 5)
      emptyKpi emptyKpi KpiKey.pe 5).1 (by decide)⟩,
   ⟨by decide,
    (C2_fallback_fills_gaps_only [] emptyKpi emptyKpi (kpiOnlyPe 5)
      emptyKpi KpiKey.pe 5).2.1 (by decide) (by decide)⟩,
   ⟨by decide,
    (C2_fallback_fills_gaps_only [] emptyKpi emptyKpi (kpiOnlyPe 5)
      (kpiOnlyPe 30) KpiKey.pe 5).2.2 (by decide)⟩⟩

/-! ### Claim C7 -/

lemma dedupHits_sublist (l : List Hit) (seen : List String) :
    (dedupHits seen l).Sublist l := by
  induction l generalizing seen with
  | nil => simp [dedupHits]
  | cons h rest ih =>
    by_cases hc : hitKey h ≠ "" ∧ hitKey h ∉ seen
    · simp only [dedupHits, if_pos hc]
      exact (ih _).cons₂ h
    · simp only [dedupHits, if_neg hc]
      exact (ih seen).cons h

lemma dedupHits_mem (l : List Hit) (seen : List String) (x : Hit)
    (hx : x ∈ dedupHits seen l) : hitKey x ≠ "" ∧ hitKey x ∉ seen := by
  induction l generalizing seen with
  | nil => simp [dedupHits] at hx
  | cons h rest ih =>
    by_cases hc : hitKey h ≠ "" ∧ hitKey h ∉ seen
    · simp only [dedupHits, if_pos hc] at hx
      rcases List.mem_cons.1 hx with rfl | hx2
      · exact hc
      · have hk := ih _ hx2
        exact ⟨hk.1, fun hmem => hk.2 (List.mem_cons_of_mem _ hmem)⟩
    · simp only [dedupHits, if_neg hc] at hx
      exact ih seen hx

lemma dedupHits_pairwise (l : List Hit) (seen : List String) :
    (dedupHits seen l).Pairwise (fun a b => hitKey a ≠ hitKey b) := by
  induction l generalizing seen with
  | nil => simp [dedupHits]
  | cons h rest ih =>
    by_cases hc : hitKey h ≠ "" ∧ hitKey h ∉ seen
    · simp only [dedupHits, if_pos hc]
      refine List.Pairwise.cons ?_ (ih _)
      intro b hb heq
      exact (dedupHits_mem _ _ _ hb).2 (by rw [← heq]; exact List.mem_cons_self _ _)
    · simp only [dedupHits, if_neg hc]
      exact ih seen

lemma dedupHits_find (l : List Hit) (seen : List String) (x : Hit)
    (hx : x ∈ dedupHits seen l) :
    l.find? (fun y => hitKey y == hitKey x) = some x := by
  induction l generalizing seen with
  | nil => simp [dedupHits] at hx
  | cons h rest ih =>
    by_cases hc : hitKey h ≠ "" ∧ hitKey h ∉ seen
    · simp only [dedupHits, if_pos hc] at hx
      rcases List.mem_cons.1 hx with rfl | hx2
      · rw [List.find?_cons_of_pos _ (by simp)]
      · have hk := dedupHits_mem _ _ _ hx2
        have hne : hitKey h ≠ hitKey x := fun he =>
          hk.2 (by rw [← he]; exact List.mem_cons_self _ _)
        rw [List.find?_cons_of_neg _ (by simp [hne])]
        exact ih _ hx2
    · simp only [dedupHits, if_neg hc] at hx
      have hk := dedupHits_mem _ _ _ hx
      have hne : hitKey h ≠ hitKey x := by
        intro he
        by_cases hkh : hitKey h = ""
        · exact hk.1 (he ▸ hkh)
        · have hmem : hitKey h ∈ seen := by
            by_contra hnm
            exact hc ⟨hkh, hnm⟩
          exact hk.2 (he ▸ hmem)
      rw [List.find?_cons_of_neg _ (by simp [hne])]
      exact ih seen hx

lemma web_search_sublist_dedup (raw : List Hit) (m : Int) :
    (web_search raw m).Sublist (dedupHits [] raw) := by
  unfold web_search pySliceTo
  by_cases hm : (0 : Int) ≤ m
  · rw [if_pos hm]; exact List.take_sublist _ _
  · rw [if_neg hm]; exact List.take_sublist _ _

/-- C7, counterexample: the claim bounds the output length by
`max_results` for every `max_results`, but the tool truncates with the
Python slice `final[:max_results]`, whose result always has a
non-negative length; at `max_results = -1` the bound fails (already on an
empty raw hit list, whose output of length 0 is not ≤ -1). -/
theorem C7_counterexample :
    ¬ (∀ (raw : List Hit) (max_results : Int),
        ((web_search raw max_results).length : Int) ≤ max_results) := by
  intro h
  exact absurd (h [] (-1)) (by decide)

/-- C7 (amended): for every non-negative `max_results` the output has at
most `max_results` entries; for every `max_results` whatsoever the output
is a subsequence of the raw hit list in which no two entries share a
deduplication key (the link, falling back to the title when the link is
empty) and every entry is the first raw hit bearing its key — so of two
raw hits sharing a link only the first-seen one appears. -/
theorem C7_dedup_and_truncate (raw : List Hit) (max_results : Int) :
    ((0 : Int) ≤ max_results →
      ((web_search raw max_results).length : Int) ≤ max_results) ∧
    (web_search raw max_results).Sublist raw ∧
    (web_search raw max_results).Pairwise (fun a b => hitKey a ≠ hitKey b) ∧
    ∀ x ∈ web_search raw max_results,
      raw.find? (fun y => hitKey y == hitKey x) = some x := by
  refine ⟨?_, ?_, ?_, ?_⟩
  · intro hm
    unfold web_search pySliceTo
    rw [if_pos hm]
    calc ((List.take max_results.toNat (dedupHits [] raw)).length : Int)
        ≤ (max_results.toNat : Int) := by
          exact_mod_cast List.length_take_le _ _
      _ = max_results := Int.toNat_of_nonneg hm
  · exact (web_search_sublist_dedup raw max_results).trans (dedupHits_sublist raw [])
  · exact (dedupHits_pairwise raw []).sublist (web_search_sublist_dedup raw max_results)
  · intro x hx
    exact dedupHits_find raw [] x ((web_search_sublist_dedup raw max_results).subset hx)

/-- Raw hits for the C7 witness: the first two share a link. -/
def rawC7 : List Hit := [⟨"t1", "s1", "l"⟩, ⟨"t2", "s2", "l"⟩, ⟨"t3", "s3", "l3"⟩]

/-- C7, witness: at `max_results = 2` on three raw hits of which two share
a link, the output respects the bound and keeps the first-seen hit. -/
theorem C7_dedup_and_truncate_witness :
    ((0 : Int) ≤ 2 ∧ ((web_search rawC7 2).length : Int) ≤ 2) ∧
    ((⟨"t1", "s1", "l"⟩ : Hit) ∈ web_search rawC7 2 ∧
      rawC7.find? (fun y => hitKey y == hitKey (⟨"t1", "s1", "l"⟩ : Hit))
        = some ⟨"t1", "s1", "l"⟩) :=
  ⟨⟨by decide, (C7_dedup_and_truncate rawC7 2).1 (by decide)⟩,
   ⟨by decide,
    (C7_dedup_and_truncate rawC7 2).2.2.2 ⟨"t1", "s1", "l"⟩ (by decide)⟩⟩

/-! ### Claim C8 -/

/-- C8: the research stage always leaves a non-empty `docs`, and when no
search hit carries a fetchable (non-empty) link, `docs` is exactly the
single pseudo-document built from the first hit's title and snippet
(empty strings when there are no hits at all). -/
theorem C8_docs_nonempty (fetch : String → Doc) (hits : List Hit)
    (t1 t2 : Nat) (s : PState) :
    (researcher_node fetch hits t1 t2 s).docs ≠ [] ∧
    (hits.all (fun h => h.link == "") = true →
      (researcher_node fetch hits t1 t2 s).docs = [pseudoDoc hits]) := by
  constructor
  · show researcherDocs fetch hits ≠ []
    unfold researcherDocs
    by_cases hl : (fetchLinks hits).isEmpty
    · simp [hl]
    · rw [if_neg hl]
      simp only [ne_eq, List.map_eq_nil_iff]
      intro hcon
      rw [hcon] at hl
      exact hl rfl
  · intro hall
    have hfl : fetchLinks hits = [] := by
      unfold fetchLinks
      rw [List.filter_eq_nil_iff]
      intro a ha
      rcases List.mem_map.1 ha with ⟨h, hh, rfl⟩
      have hmem : h ∈ hits := List.take_subset 6 hits hh
      have hlk := List.all_eq_true.1 hall h hmem
      simp only [beq_iff_eq] at hlk
      simp [hlk]
    show researcherDocs fetch hits = [pseudoDoc hits]
    simp [researcherDocs, hfl]

/-- Initial pipeline state used by witnesses. -/
def initState : PState := ⟨"q", "", [], [], "", [], [], none, []⟩

/-- C8, witness: one hit with an empty link — the stage degrades to the
pseudo-document built from its title and snippet. -/
theorem C8_docs_nonempty_witness :
    ([⟨"t", "sn", ""⟩] : List Hit).all (fun h => h.link == "") = true ∧
    (researcher_node (fun u => ⟨u, "", ""⟩) [⟨"t", "sn", ""⟩] 0 1 initState).docs
      = [pseudoDoc [⟨"t", "sn", ""⟩]] :=
  ⟨by decide,
   (C8_docs_nonempty (fun u => ⟨u, "", ""⟩) [⟨"t", "sn", ""⟩] 0 1 initState).2 (by decide)⟩

/-! ### Claim C9 -/

/-- C9, counterexample: the claim says every one of the four stage
invocations appends both a start and a done trace event. The writer stage
(`writer.node`) never touches the `trace` field, so its invocation grows
the trace by zero events, not two. -/
theorem C9_counterexample :
    ¬ (∀ (report : String) (s : PState),
        s.trace.length + 2 ≤ (writer_node report s).trace.length) := by
  intro h
  exact absurd (h "r" initState) (by decide)

/-- C9 (amended): the researcher, curator and fact-checker stages each
append exactly a start event and a done event carrying the stage name, a
timestamp and the stage's doc/claim count; the writer stage appends no
trace event at all; and every one of the four stages preserves the
previous trace as a prefix of the new one (the writer leaves it
unchanged). -/
theorem C9_trace_appends (fetch : String → Doc) (hits : List Hit)
    (sel? : Option (List Doc)) (summarize : List Doc → String)
    (claims : List String) (m : Int) (report : String)
    (t1 t2 t3 t4 t5 t6 : Nat) (s : PState) :
    ((researcher_node fetch hits t1 t2 s).trace
      = s.trace ++ [⟨"researcher", t1, none⟩,
          ⟨"researcher:done", t2, some (researcherDocs fetch hits).length⟩] ∧
     (curator_node sel? summarize t3 t4 s).trace
      = s.trace ++ [⟨"curator", t3, none⟩,
          ⟨"curator:done", t4, some (curatorSelected sel? s).length⟩] ∧
     (fact_checker_node claims m t5 t6 s).trace
      = s.trace ++ [⟨"fact_checker", t5, none⟩,
          ⟨"fact_checker:done", t6,
            some (verify_claims_tool claims (s.docs.map docToSource) m).length⟩] ∧
     (writer_node report s).trace = s.trace) ∧
    (s.trace <+: (researcher_node fetch hits t1 t2 s).trace ∧
     s.trace <+: (curator_node sel? summarize t3 t4 s).trace ∧
     s.trace <+: (fact_checker_node claims m t5 t6 s).trace ∧
     s.trace <+: (writer_node report s).trace) := by
  have hr : (researcher_node fetch hits t1 t2 s).trace
      = s.trace ++ [⟨"researcher", t1, none⟩,
          ⟨"researcher:done", t2, some (researcherDocs fetch hits).length⟩] := by
    simp [researcher_node]
  have hc : (curator_node sel? summarize t3 t4 s).trace
      = s.trace ++ [⟨"curator", t3, none⟩,
          ⟨"curator:done", t4, some (curatorSelected sel? s).length⟩] := by
    simp [curator_node]
  have hf : (fact_checker_node claims m t5 t6 s).trace
      = s.trace ++ [⟨"fact_checker", t5, none⟩,
          ⟨"fact_checker:done", t6,
            some (verify_claims_tool claims (s.docs.map docToSource) m).length⟩] := by
    simp [fact_checker_node]
  refine ⟨⟨hr, hc, hf, rfl⟩, ?_, ?_, ?_, ?_⟩
  · rw [hr]; exact List.prefix_append _ _
  · rw [hc]; exact List.prefix_append _ _
  · rw [hf]; exact List.prefix_append _ _
  · exact List.prefix_rfl

end SFP
